import Mathlib

/-!
Verification of the mindshard-studio memory/retrieval core.

This file gives a shallow embedding, in Lean, of the tiered memory and retrieval
engine of the repository (backend/utils.py, backend/digestor.py,
backend/digestor_manager.py, backend/memory_layers.py, backend/vector_store.py)
and proves or refutes the behavioural claims about it.

Modelling conventions:
- Python ints are `Int` (with `Nat` where the source can only produce non-negative
  values), Python strings are `String` (the chunker, which indexes into the text,
  works over `List Char`), Python floats that are only ever compared are `Rat`.
- A raised exception is `Except.error`; mutation is explicit state passing.
- Python `set` is a duplicate-free `List` (insert only when absent).
- External callables injected into the code (embedder, chunker, summarizer,
  vector-search backends) are function parameters, as in the source's
  dependency-injection style.
-/

namespace Mindshard

/-! ### Python list primitives -/

/-- Python slice `l[i:]`: a negative index counts from the end and is clamped to 0;
a non-negative index is clamped to `len(l)`. -/
def pySliceFrom (i : Int) (l : List α) : List α :=
  if i < 0 then l.drop ((l.length : Int) + i).toNat else l.drop i.toNat

/-- Python slice `l[:k]`: a negative bound counts from the end and is clamped to 0;
a non-negative bound is clamped to `len(l)`. -/
def pySliceTo (k : Int) (l : List α) : List α :=
  if 0 ≤ k then l.take k.toNat else l.take ((l.length : Int) + k).toNat

/-- Python indexing `l[i]`: a negative index counts from the end; an index out of
range raises `IndexError`. -/
def pyGetItem (l : List α) (i : Int) : Except String α :=
  if 0 ≤ i then
    match l.get? i.toNat with
    | some x => Except.ok x
    | none => Except.error "IndexError: list index out of range"
  else if (l.length : Int) + i < 0 then
    Except.error "IndexError: list index out of range"
  else
    match l.get? ((l.length : Int) + i).toNat with
    | some x => Except.ok x
    | none => Except.error "IndexError: list index out of range"

/-! ### Chunker (backend/utils.py, `chunk_text`) -/

/-- The `while start < text_length` loop of `chunk_text` (utils.py lines 25-36):
emit `text[start:start+size]`, advance `start` by `step = chunk_size - chunk_overlap`.
The validation in `chunk_text` guarantees `0 < step`, which is what makes the loop
terminate; it is threaded as a hypothesis. -/
def chunkLoop (text : List Char) (size step : Nat) (hstep : 0 < step) (start : Nat) :
    List (List Char) :=
  if h : start < text.length then
    ((text.drop start).take size) :: chunkLoop text size step hstep (start + step)
  else
    []
termination_by text.length - start
decreasing_by omega

/-- `chunk_text(text, chunk_size, chunk_overlap)` (utils.py lines 8-36).
`ValueError` is modelled as `Except.error` with the source's message. -/
def chunk_text (text : List Char) (chunk_size chunk_overlap : Int) :
    Except String (List (List Char)) :=
  if hs : chunk_size ≤ 0 then
    Except.error "chunk_size must be positive"
  else if ho : chunk_overlap < 0 ∨ chunk_overlap ≥ chunk_size then
    Except.error "chunk_overlap must be >= 0 and < chunk_size"
  else
    Except.ok (chunkLoop text chunk_size.toNat (chunk_size - chunk_overlap).toNat
      (by omega) 0)

/-! ### Ingestion engine (backend/digestor.py, `Digestor`) -/

/-- A document handed to `ingest_documents`: `{'path': str, 'content': str}`. -/
structure Doc where
  path : String
  content : String
deriving DecidableEq

/-- The metadata built per chunk in `ingest_documents` (digestor.py lines 99-107). -/
structure ChunkMeta where
  source : String
  path : String
  chunk_index : Nat
  content_hash : String
deriving DecidableEq

/-- A metadata filter for `delete_by_metadata`: a dict over the fixed metadata keys,
where a present key demands equality. -/
structure MetaFilter where
  source : Option String := none
  path : Option String := none
  chunk_index : Option Nat := none
  content_hash : Option String := none

/-- `all(meta.get(k) == v for k, v in filters.items())` (vector_store.py line 53). -/
def MetaFilter.matchesMeta (f : MetaFilter) (m : ChunkMeta) : Bool :=
  (f.source.all fun v => m.source == v) &&
  (f.path.all fun v => m.path == v) &&
  (f.chunk_index.all fun v => m.chunk_index == v) &&
  (f.content_hash.all fun v => m.content_hash == v)

/-- One record held by the vector store: an embedding plus its chunk metadata
(FaissVectorStore keeps the vectors in the index and the metadata in a parallel
list; `count()` is the number of stored vectors). -/
structure VecRecord where
  embedding : List Int
  meta : ChunkMeta
deriving DecidableEq

/-- Python `set.add`: insert only when absent (the seen-hash set is modelled as a
duplicate-free list). -/
def hashInsert (h : String) (l : List String) : List String :=
  if h ∈ l then l else h :: l

/-- Python `set.discard`: remove the element if present. -/
def hashDiscard (h : String) (l : List String) : List String :=
  l.filter fun x => x != h

/-- The mutable state of one `Digestor` together with its backing store:
the stored records and the `_seen_hashes` set. -/
structure DigestorState where
  records : List VecRecord
  seen_hashes : List String
deriving DecidableEq

/-- The injected capabilities and configuration of a `Digestor`
(digestor.py `__init__`): `embedder`, `chunker` (called as
`chunker(content, chunk_size, chunk_overlap)`), `_hash_content`, and the two
chunking parameters. -/
structure DigestorCfg where
  embedder : String → List Int
  chunker : String → Int → Int → List String
  hashContent : String → String
  chunk_size : Int
  chunk_overlap : Int

/-- `Digestor.ingest_chunks` (digestor.py lines 111-147): length-mismatch raises
`ValueError`; each chunk is embedded (the embedder is a total injected function,
so no per-chunk failure arises in the model); if at least one embedding exists the
records are appended to the store, otherwise only a warning is logged. -/
def Digestor.ingest_chunks (cfg : DigestorCfg) (chunks : List String)
    (metadatas : List ChunkMeta) (st : DigestorState) :
    Except String Unit × DigestorState :=
  if chunks.length ≠ metadatas.length then
    (Except.error "Chunks and metadata length must match", st)
  else
    let embeddings := chunks.map cfg.embedder
    if embeddings.isEmpty then
      (Except.ok (), st)
    else
      (Except.ok (),
        { st with records := st.records ++ (embeddings.zip metadatas).map fun p =>
            { embedding := p.1, meta := p.2 } })

/-- The body of the `for doc in documents` loop of `Digestor.ingest_documents`
(digestor.py lines 88-109) for one document. An empty content hits
`logger.debug('Skipping empty document', path=path)`, which raises `TypeError`
(the standard-library logger accepts no `path` keyword). A previously seen hash
with `force` unset is skipped. Otherwise the content is chunked, per-chunk
metadata is built, `ingest_chunks` runs, and the hash is recorded as seen. -/
def Digestor.ingest_one (cfg : DigestorCfg) (source : String) (force : Bool)
    (doc : Doc) (st : DigestorState) : Except String Unit × DigestorState :=
  if doc.content = "" then
    (Except.error "TypeError: debug got an unexpected keyword argument p", st)
  else
    let h := cfg.hashContent doc.content
    if h ∈ st.seen_hashes ∧ force = false then
      (Except.ok (), st)
    else
      let chunks := cfg.chunker doc.content cfg.chunk_size cfg.chunk_overlap
      let metadatas := (List.range chunks.length).map fun idx =>
        { source := source, path := doc.path, chunk_index := idx, content_hash := h }
      match Digestor.ingest_chunks cfg chunks metadatas st with
      | (Except.error e, st1) => (Except.error e, st1)
      | (Except.ok _, st1) =>
        (Except.ok (), { st1 with seen_hashes := hashInsert h st1.seen_hashes })

/-- `Digestor.ingest_documents(source, documents, force)` (digestor.py lines 76-109):
the loop over the documents; an exception raised for one document propagates (there
is no try/except around the loop body), carrying the state mutated so far. -/
def Digestor.ingest_documents (cfg : DigestorCfg) (source : String) (docs : List Doc)
    (force : Bool) (st : DigestorState) : Except String Unit × DigestorState :=
  match docs with
  | [] => (Except.ok (), st)
  | d :: rest =>
    match Digestor.ingest_one cfg source force d st with
    | (Except.error e, st1) => (Except.error e, st1)
    | (Except.ok _, st1) => Digestor.ingest_documents cfg source rest force st1

/-- `store.count()`: number of stored records. -/
def storeCount (st : DigestorState) : Nat := st.records.length

/-- `FaissVectorStore.delete_by_metadata` (vector_store.py lines 50-67): keep the
non-matching records in order, return how many were removed. -/
def storeDeleteByMetadata (f : MetaFilter) (records : List VecRecord) :
    Nat × List VecRecord :=
  let kept := records.filter fun r => ! f.matchesMeta r.meta
  (records.length - kept.length, kept)

/-- `Digestor.delete_by_metadata` (digestor.py lines 202-217): delegates to the
store. Note that `_seen_hashes` is not touched. -/
def Digestor.delete_by_metadata (f : MetaFilter) (st : DigestorState) :
    Nat × DigestorState :=
  let p := storeDeleteByMetadata f st.records
  (p.1, { st with records := p.2 })

/-- `Digestor.clear` (digestor.py lines 235-244): `self.store.clear()` raises
`AttributeError` (neither `FaissVectorStore` nor `ChromaVectorStore` defines a
`clear` method), the exception is caught and logged, then `_seen_hashes` is
cleared — so the stored records survive. -/
def Digestor.clear (st : DigestorState) : DigestorState :=
  { st with seen_hashes := [] }

/-- `Digestor.update_document` (digestor.py lines 219-233): delete the old records
for the path, discard the hash, then call `self.ingest_documents([document],
force=True)` — which passes the list into the `source` parameter and omits the
required `documents` parameter, so Python raises `TypeError` at the call site and
`update_document` never returns normally. -/
def Digestor.update_document (cfg : DigestorCfg) (doc : Doc) (st : DigestorState) :
    Except String Unit × DigestorState :=
  let p := Digestor.delete_by_metadata { path := some doc.path } st
  let st1 := { p.2 with seen_hashes := hashDiscard (cfg.hashContent doc.content) p.2.seen_hashes }
  (Except.error "TypeError: ingest_documents missing 1 required positional argument", st1)

/-- The seen-hash / stored-record correspondence claimed by the specification:
`_seen_hashes` is exactly the set of hashes with at least one stored record. -/
def seenInv (st : DigestorState) : Prop :=
  ∀ h : String, h ∈ st.seen_hashes ↔ ∃ r ∈ st.records, r.meta.content_hash = h

/-! ### Query results and the group merge (backend/digestor_manager.py) -/

/-- One entry of a query result: the metadata payload (opaque here) and the
`score` value the adapters attach; `entry.get('score', 0)` defaults a missing
score to 0, so the score is optional. -/
structure QEntry where
  payload : String
  score : Option Rat
deriving DecidableEq

/-- The sort key used in `query_group`: `entry.get('score', 0)`
(digestor_manager.py line 263). -/
def QEntry.scoreKey (e : QEntry) : Rat := e.score.getD 0

/-- Insertion step of a stable descending sort: walk past entries with a strictly
larger key, insert before the first entry whose key is at most the new key.
Entries with an equal key that were already in the list stay in front, matching
Python's stable `sorted(..., reverse=True)`. -/
def insertDescBy (key : α → Rat) (a : α) : List α → List α
  | [] => [a]
  | b :: l => if key a < key b then b :: insertDescBy key a l else a :: b :: l

/-- Stable descending sort by key, modelling Python's stable
`sorted(..., key=..., reverse=True)`. -/
def sortDescBy (key : α → Rat) : List α → List α
  | [] => []
  | a :: l => insertDescBy key a (sortDescBy key l)

/-- `DigestorManager.query_group` (digestor_manager.py lines 241-266), with each
member engine's query outcome abstracted as an `Except` (an exception from a
member is caught and that member contributes nothing). The concatenated results
are sorted descending by score (stable), then `sorted_results[:top_k] if top_k
else sorted_results` is returned — note Python truthiness: `top_k = None` and
`top_k = 0` both skip the truncation. -/
def DigestorManager.query_group (memberResults : List (Except String (List QEntry)))
    (top_k : Option Int) : List QEntry :=
  let all := memberResults.foldl
    (fun acc r => match r with
      | Except.ok l => acc ++ l
      | Except.error _ => acc) []
  let sorted := sortDescBy QEntry.scoreKey all
  match top_k with
  | none => sorted
  | some k => if k = 0 then sorted else pySliceTo k sorted

/-! ### Registry (backend/digestor_manager.py, `DigestorManager`) -/

/-- A registered engine, abstracted: a label identifying it and whether its
`clear()` call raises (so that best-effort clearing is observable). -/
structure Engine where
  label : String
  clearRaises : Bool
deriving DecidableEq

/-- The registry state: `_instances` and `_groups` as insertion-ordered
association lists (Python dicts). -/
structure MgrState where
  instances : List (String × Engine)
  groups : List (String × List String)
deriving DecidableEq

/-- `DigestorManager.register_instance` (digestor_manager.py lines 43-56). -/
def DigestorManager.register_instance (st : MgrState) (id : String) (eng : Engine) :
    Except String MgrState :=
  if (st.instances.lookup id).isSome then
    Except.error ("ValueError: Instance already registered: " ++ id)
  else
    Except.ok { st with instances := st.instances ++ [(id, eng)] }

/-- `DigestorManager.list_instances` (digestor_manager.py lines 80-85). -/
def DigestorManager.list_instances (st : MgrState) : List String :=
  st.instances.map Prod.fst

/-- `DigestorManager.list_groups` (digestor_manager.py lines 166-171). -/
def DigestorManager.list_groups (st : MgrState) : List String :=
  st.groups.map Prod.fst

/-- `DigestorManager.delete_instance` (digestor_manager.py lines 101-122):
`KeyError` when the id is unknown; otherwise the engine's `clear()` is attempted
best-effort (its outcome is discarded), the id is removed from the registry, and
`members.remove(instance_id)` removes the FIRST occurrence of the id from each
group that contains it. -/
def DigestorManager.delete_instance (st : MgrState) (id : String) :
    Except String MgrState :=
  match st.instances.lookup id with
  | none => Except.error ("KeyError: Unknown instance " ++ id)
  | some _eng =>
    Except.ok
      { instances := st.instances.filter fun p => p.1 != id
      , groups := st.groups.map fun g => (g.1, g.2.erase id) }

/-- `DigestorManager.create_group` (digestor_manager.py lines 124-150):
`ValueError` when the group exists, `KeyError` when any listed instance is
unregistered, else the member list is stored as given (duplicates are NOT
removed). -/
def DigestorManager.create_group (st : MgrState) (gid : String) (ids : List String) :
    Except String MgrState :=
  if (st.groups.lookup gid).isSome then
    Except.error ("ValueError: Group already exists: " ++ gid)
  else if ids.any fun i => (st.instances.lookup i).isNone then
    Except.error "KeyError: Instance not found"
  else
    Except.ok { st with groups := st.groups ++ [(gid, ids)] }

/-- The comprehension `[self._instances[iid] for iid in self._groups[group_id]]`
(digestor_manager.py line 232): looked up left to right, raising `KeyError` at
the first member that is not registered. -/
def DigestorManager.lookupEngines (st : MgrState) :
    List String → Except String (List Engine)
  | [] => Except.ok []
  | i :: rest =>
    match st.instances.lookup i with
    | none => Except.error ("KeyError: " ++ i)
    | some e =>
      match DigestorManager.lookupEngines st rest with
      | Except.error msg => Except.error msg
      | Except.ok l => Except.ok (e :: l)

/-- `DigestorManager.get_group` (digestor_manager.py lines 221-232). -/
def DigestorManager.get_group (st : MgrState) (gid : String) :
    Except String (List Engine) :=
  match st.groups.lookup gid with
  | none => Except.error ("KeyError: Unknown group " ++ gid)
  | some members => DigestorManager.lookupEngines st members

/-- `DigestorManager.clear_all` (digestor_manager.py lines 285-297): each
instance's `clear()` is called inside try/except (failures are logged and
ignored — the discarded `clearOutcome` list), then both dicts are cleared. -/
def DigestorManager.clear_all (st : MgrState) : MgrState :=
  let _cleared := st.instances.map fun p => p.2.clearRaises
  { instances := [], groups := [] }

/-! ### Vector store adapters (backend/vector_store.py) -/

/-- The distance value FAISS reports for a padding slot (FLT_MAX in the library);
its exact value is never consumed before the failure modelled below. -/
def faissNoResultDist : Rat := 0

/-- FAISS `IndexFlat.search` on an index with `ntotal = 0` (external library
behaviour, modelled): it returns exactly `k` result slots, every one padded with
label `-1`. -/
def faissEmptyRaw (k : Nat) : List (Rat × Int) :=
  List.replicate k (faissNoResultDist, -1)

/-- The result loop of `FaissVectorStore.search` (vector_store.py lines 42-49):
`for dist, idx in zip(dists[0], idxs[0]): meta = self.metadata[idx]; ...` — the
metadata list is indexed with Python semantics, so a `-1` label reads the LAST
metadata entry and raises `IndexError` when the metadata list is empty. -/
def FaissVectorStore.search (metadata : List ChunkMeta) :
    List (Rat × Int) → Except String (List (ChunkMeta × Rat))
  | [] => Except.ok []
  | (dist, idx) :: rest =>
    match pyGetItem metadata idx with
    | Except.error e => Except.error e
    | Except.ok meta =>
      match FaissVectorStore.search metadata rest with
      | Except.error e => Except.error e
      | Except.ok l => Except.ok ((meta, dist) :: l)

/-- The reply of `collection.query` in ChromaDB: per-query inner lists of
metadata, distance and document. -/
structure ChromaReply where
  metadatas : List (List ChunkMeta)
  distances : List (List Rat)
  documents : List (List String)

/-- One entry built by `ChromaVectorStore.search`. -/
structure ChromaResult where
  meta : ChunkMeta
  score : Rat
  text : String
deriving DecidableEq

/-- `ChromaVectorStore.search` (vector_store.py lines 88-111): the guard
`if not all(key in results and results[key] and results[key][0] ...)` returns
`[]` whenever an outer or first inner list is empty; otherwise the three inner
lists are zipped into result entries. -/
def ChromaVectorStore.search (reply : ChromaReply) : List ChromaResult :=
  match reply.metadatas, reply.distances, reply.documents with
  | m0 :: _, d0 :: _, t0 :: _ =>
    if m0.isEmpty || d0.isEmpty || t0.isEmpty then []
    else ((m0.zip d0).zip t0).map fun p =>
      { meta := p.1.1, score := p.1.2, text := p.2 }
  | _, _, _ => []

/-- `collection.query` on an empty Chroma collection returns one empty inner list
per field (external library behaviour, modelled). -/
def chromaEmptyReply : ChromaReply :=
  { metadatas := [[]], distances := [[]], documents := [[]] }

/-! ### Tiered memory (backend/memory_layers.py) -/

/-- A Working-tier entry; only the fields the memory layers read are modelled. -/
structure MemoryEntry where
  id : String
  type : String
  content : String
deriving DecidableEq

/-- The call `self._longterm.ingest_documents([{'path': ..., 'content': ...}],
force=True)` at memory_layers.py line 102. `Digestor.ingest_documents` is
declared as `ingest_documents(self, source, documents, force=False)`
(digestor.py lines 76-79), so this call binds the document list to `source` and
supplies no value for the required parameter `documents`: Python raises
`TypeError` before the function body runs, whatever the documents are. -/
def flushIngestCall (docs : List Doc) : Except String Unit :=
  Except.error "TypeError: ingest_documents missing 1 required positional argument"

/-- `ShortTermMemory.flush` (memory_layers.py lines 90-111): below the threshold,
return nothing; otherwise join the Working contents with newlines, summarize,
ingest the summary into the long-term digestor, clear Working and return the
summary — all inside a try/except that returns nothing and leaves Working
untouched on any exception. The result pairs the returned value with the
Working-tier state after the call. -/
def ShortTermMemory.flush (summarizer : String → Except String String)
    (threshold : Nat) (working : List MemoryEntry) :
    Option String × List MemoryEntry :=
  if working.length < threshold then
    (none, working)
  else
    match summarizer (String.intercalate "\n" (working.map MemoryEntry.content)) with
    | Except.error _ => (none, working)
    | Except.ok summary =>
      match flushIngestCall [{ path := "<session-summary>", content := summary }] with
      | Except.error _ => (none, working)
      | Except.ok _ => (some summary, [])

/-- One item of the `query_all` merge: a Working entry tagged
`source="working"` or a long-term result tagged `source="longterm"`. -/
inductive QueryAllItem where
  | workingItem (e : MemoryEntry)
  | longtermItem (e : QEntry)
deriving DecidableEq

/-- Whether a merged item is tagged `source="working"`. -/
def QueryAllItem.isWorking : QueryAllItem → Bool
  | .workingItem _ => true
  | .longtermItem _ => false

/-- `MemoryLayers.query_all` (memory_layers.py lines 183-201): take
`self.working.list()[-k_work:]` (Python slice!) tagged as working, then append
the long-term query results tagged as longterm. The long-term side
(`LongTermMemory.query` → `Digestor.query` → adapter search, all
failure-swallowing) is abstracted as the total function `longQuery`. -/
def MemoryLayers.query_all (working : List MemoryEntry)
    (longQuery : String → Int → List QEntry) (text : String)
    (k_work k_long : Int) : List QueryAllItem :=
  (pySliceFrom (-k_work) working).map QueryAllItem.workingItem
    ++ (longQuery text k_long).map QueryAllItem.longtermItem

/-! ## Helper lemmas -/

theorem hashInsert_mem (h : String) (l : List String) : h ∈ hashInsert h l := by
  unfold hashInsert
  split
  · assumption
  · exact List.mem_cons_self h l

theorem ingest_documents_skip (cfg : DigestorCfg) (source : String) (d : Doc)
    (st : DigestorState) (hne : d.content ≠ "")
    (hmem : cfg.hashContent d.content ∈ st.seen_hashes) :
    Digestor.ingest_documents cfg source [d] false st = (Except.ok (), st) := by
  unfold Digestor.ingest_documents Digestor.ingest_one
  simp [hne, hmem, Digestor.ingest_documents]

theorem ingest_documents_single_ok (cfg : DigestorCfg) (source : String) (d : Doc)
    (st : DigestorState) (hne : d.content ≠ "") :
    (Digestor.ingest_documents cfg source [d] false st).1 = Except.ok () ∧
    cfg.hashContent d.content
      ∈ (Digestor.ingest_documents cfg source [d] false st).2.seen_hashes := by
  by_cases hmem : cfg.hashContent d.content ∈ st.seen_hashes
  · rw [ingest_documents_skip cfg source d st hne hmem]
    exact ⟨rfl, hmem⟩
  · unfold Digestor.ingest_documents Digestor.ingest_one Digestor.ingest_chunks
    simp only [if_neg hne, hmem, false_and, if_false, List.length_map, List.length_range,
      ne_eq, not_true_eq_false, ite_false]
    by_cases hemp :
        (List.map cfg.embedder (cfg.chunker d.content cfg.chunk_size cfg.chunk_overlap)).isEmpty
    · rw [if_pos hemp]
      exact ⟨rfl, hashInsert_mem _ _⟩
    · rw [if_neg hemp]
      exact ⟨rfl, hashInsert_mem _ _⟩

/-! ## Claim theorems -/

/-- C1 (code_bug evidence). The spec: with threshold 3 and three Working entries,
`flush()` summarizes, force-ingests the summary under `path="<session-summary>"`,
clears Working and returns the summary. The code instead evaluates
`self._longterm.ingest_documents([...], force=True)` against the signature
`ingest_documents(self, source, documents, force=False)`, so the call raises
`TypeError`, the surrounding try/except swallows it, and `flush` returns nothing
with Working unchanged — even with a perfectly working summarizer. -/
theorem shortterm_flush_arity_bug :
    ShortTermMemory.flush (fun s => Except.ok ("SUMMARY: " ++ s)) 3
      [⟨"1", "user", "alpha"⟩, ⟨"2", "user", "beta"⟩, ⟨"3", "user", "gamma"⟩]
      = (none,
         [⟨"1", "user", "alpha"⟩, ⟨"2", "user", "beta"⟩, ⟨"3", "user", "gamma"⟩]) := by
  rfl

/-- C2. Flush failure atomicity: for every Working state at or above the
threshold, if the summarizer or the long-term ingestion raises, `flush()`
returns nothing and the Working tier still holds all of its original entries. -/
theorem flush_failure_preserves_working
    (summarizer : String → Except String String) (threshold : Nat)
    (working : List MemoryEntry)
    (hsize : threshold ≤ working.length)
    (hfail :
      (∃ e, summarizer (String.intercalate "\n" (working.map MemoryEntry.content))
        = Except.error e) ∨
      (∀ docs, ∃ e, flushIngestCall docs = Except.error e)) :
    ShortTermMemory.flush summarizer threshold working = (none, working) := by
  unfold ShortTermMemory.flush
  rw [if_neg (by omega)]
  rcases hcase : summarizer (String.intercalate "\n" (working.map MemoryEntry.content))
    with e | s
  · rfl
  · rfl

/-- Witness for C2 at a concrete input: two entries, threshold 2, a summarizer
that raises. -/
theorem flush_failure_preserves_working_witness :
    2 ≤ ([⟨"1", "user", "alpha"⟩, ⟨"2", "user", "beta"⟩] : List MemoryEntry).length ∧
    ShortTermMemory.flush (fun _ => Except.error "summarizer boom") 2
      [⟨"1", "user", "alpha"⟩, ⟨"2", "user", "beta"⟩]
      = (none, [⟨"1", "user", "alpha"⟩, ⟨"2", "user", "beta"⟩]) :=
  ⟨by decide,
   flush_failure_preserves_working (fun _ => Except.error "summarizer boom") 2
     [⟨"1", "user", "alpha"⟩, ⟨"2", "user", "beta"⟩] (by decide)
     (Or.inl ⟨"summarizer boom", rfl⟩)⟩

/-- C3. Re-ingestion idempotence: for any source, any document with non-empty
content and any starting state, the first `ingest_documents(source, [d],
force=false)` returns normally, and repeating it with identical content is a
no-op: it returns normally again, changes nothing (in particular the store's
`count()` is unchanged). -/
theorem ingest_documents_idempotent (cfg : DigestorCfg) (source : String) (d : Doc)
    (st : DigestorState) (hne : d.content ≠ "") :
    (Digestor.ingest_documents cfg source [d] false st).1 = Except.ok () ∧
    Digestor.ingest_documents cfg source [d] false
        (Digestor.ingest_documents cfg source [d] false st).2
      = (Except.ok (), (Digestor.ingest_documents cfg source [d] false st).2) ∧
    storeCount (Digestor.ingest_documents cfg source [d] false
        (Digestor.ingest_documents cfg source [d] false st).2).2
      = storeCount (Digestor.ingest_documents cfg source [d] false st).2 := by
  obtain ⟨hok, hmem⟩ := ingest_documents_single_ok cfg source d st hne
  have hskip := ingest_documents_skip cfg source d
    (Digestor.ingest_documents cfg source [d] false st).2 hne hmem
  exact ⟨hok, hskip, by rw [hskip]⟩

/-- Witness for C3 at a concrete input. -/
theorem ingest_documents_idempotent_witness :
    (⟨"a.txt", "hello"⟩ : Doc).content ≠ "" ∧
    ((Digestor.ingest_documents ⟨fun _ => [0], fun s _ _ => [s], fun s => s, 500, 50⟩
        "src" [⟨"a.txt", "hello"⟩] false ⟨[], []⟩).1 = Except.ok () ∧
      Digestor.ingest_documents ⟨fun _ => [0], fun s _ _ => [s], fun s => s, 500, 50⟩
          "src" [⟨"a.txt", "hello"⟩] false
          (Digestor.ingest_documents ⟨fun _ => [0], fun s _ _ => [s], fun s => s, 500, 50⟩
            "src" [⟨"a.txt", "hello"⟩] false ⟨[], []⟩).2
        = (Except.ok (),
           (Digestor.ingest_documents ⟨fun _ => [0], fun s _ _ => [s], fun s => s, 500, 50⟩
             "src" [⟨"a.txt", "hello"⟩] false ⟨[], []⟩).2) ∧
      storeCount (Digestor.ingest_documents ⟨fun _ => [0], fun s _ _ => [s], fun s => s, 500, 50⟩
          "src" [⟨"a.txt", "hello"⟩] false
          (Digestor.ingest_documents ⟨fun _ => [0], fun s _ _ => [s], fun s => s, 500, 50⟩
            "src" [⟨"a.txt", "hello"⟩] false ⟨[], []⟩).2).2
        = storeCount (Digestor.ingest_documents ⟨fun _ => [0], fun s _ _ => [s], fun s => s, 500, 50⟩
            "src" [⟨"a.txt", "hello"⟩] false ⟨[], []⟩).2) :=
  ⟨by decide,
   ingest_documents_idempotent ⟨fun _ => [0], fun s _ _ => [s], fun s => s, 500, 50⟩
     "src" ⟨"a.txt", "hello"⟩ ⟨[], []⟩ (by decide)⟩

/-- C4 (code_bug evidence). The spec: after `delete_by_metadata` returns,
`_seen_hashes` equals the set of hashes with at least one stored record.
The code's `delete_by_metadata` never touches `_seen_hashes`: after ingesting
one document and deleting all of its records by path, its hash is still in
`_seen_hashes` while no record carries it, so the invariant is false. -/
theorem seen_hashes_invariant_broken_by_delete :
    ((Digestor.delete_by_metadata { path := some "a.txt" }
        (Digestor.ingest_documents ⟨fun _ => [0], fun s _ _ => [s], fun s => s, 500, 50⟩
          "src" [⟨"a.txt", "hello"⟩] false ⟨[], []⟩).2).2.seen_hashes = ["hello"] ∧
      (Digestor.delete_by_metadata { path := some "a.txt" }
        (Digestor.ingest_documents ⟨fun _ => [0], fun s _ _ => [s], fun s => s, 500, 50⟩
          "src" [⟨"a.txt", "hello"⟩] false ⟨[], []⟩).2).2.records = []) ∧
    ¬ seenInv (Digestor.delete_by_metadata { path := some "a.txt" }
        (Digestor.ingest_documents ⟨fun _ => [0], fun s _ _ => [s], fun s => s, 500, 50⟩
          "src" [⟨"a.txt", "hello"⟩] false ⟨[], []⟩).2).2 := by
  refine ⟨by decide, ?_⟩
  intro hinv
  obtain ⟨r, hr, -⟩ := (hinv "hello").mp (by decide)
  revert hr
  have hrec : (Digestor.delete_by_metadata { path := some "a.txt" }
      (Digestor.ingest_documents ⟨fun _ => [0], fun s _ _ => [s], fun s => s, 500, 50⟩
        "src" [⟨"a.txt", "hello"⟩] false ⟨[], []⟩).2).2.records = [] := by decide
  rw [hrec]
  exact List.not_mem_nil r

/-- C9 (code_bug evidence). The spec: `search` on an empty store returns an
empty sequence rather than an error. `FaissVectorStore.search` on an empty
index receives `k` padding slots with label `-1` from FAISS and evaluates
`self.metadata[-1]` on the empty metadata list, raising `IndexError`.
(`ChromaVectorStore.search` does guard this case and returns `[]`.) -/
theorem faiss_empty_search_raises :
    FaissVectorStore.search ([] : List ChunkMeta) (faissEmptyRaw 5)
      = Except.error "IndexError: list index out of range" ∧
    ChromaVectorStore.search chromaEmptyReply = [] := by
  exact ⟨rfl, rfl⟩

/-- C10. After `DigestorManager.clear_all()` returns, the registry holds no
instances and no groups — regardless of the starting state, in particular even
when some instance's `clear()` raises (the outcome of each member clear is
discarded). -/
theorem clear_all_empties_registry (st : MgrState) :
    DigestorManager.list_instances (DigestorManager.clear_all st) = [] ∧
    DigestorManager.list_groups (DigestorManager.clear_all st) = [] :=
  ⟨rfl, rfl⟩

theorem mem_insertDescBy {α : Type} (key : α → Rat) (a x : α) (l : List α) :
    x ∈ insertDescBy key a l ↔ x = a ∨ x ∈ l := by
  induction l with
  | nil => simp [insertDescBy]
  | cons b l ih =>
    unfold insertDescBy
    split
    · simp only [List.mem_cons, ih]
      tauto
    · simp [List.mem_cons]

theorem pairwise_insertDescBy {α : Type} (key : α → Rat) (a : α) (l : List α)
    (h : l.Pairwise fun x y => key y ≤ key x) :
    (insertDescBy key a l).Pairwise fun x y => key y ≤ key x := by
  induction l with
  | nil => simp [insertDescBy]
  | cons b l ih =>
    rw [List.pairwise_cons] at h
    obtain ⟨hb, hl⟩ := h
    unfold insertDescBy
    split
    · rename_i hab
      rw [List.pairwise_cons]
      refine ⟨?_, ih hl⟩
      intro y hy
      rcases (mem_insertDescBy key a y l).mp hy with rfl | hyl
      · exact le_of_lt hab
      · exact hb y hyl
    · rename_i hab
      rw [List.pairwise_cons]
      refine ⟨?_, List.pairwise_cons.mpr ⟨hb, hl⟩⟩
      intro y hy
      rcases List.mem_cons.mp hy with rfl | hyl
      · exact not_lt.mp hab
      · exact le_trans (hb y hyl) (not_lt.mp hab)

theorem sortDescBy_sorted {α : Type} (key : α → Rat) (l : List α) :
    (sortDescBy key l).Pairwise fun x y => key y ≤ key x := by
  induction l with
  | nil => simp [sortDescBy]
  | cons a l ih => exact pairwise_insertDescBy key a _ ih

theorem filter_insertDescBy {α : Type} (key : α → Rat) (a : α) (v : Rat) (l : List α) :
    (insertDescBy key a l).filter (fun x => key x == v)
      = if key a = v then a :: l.filter (fun x => key x == v)
        else l.filter (fun x => key x == v) := by
  induction l with
  | nil =>
    by_cases hav : key a = v <;> simp [insertDescBy, List.filter_cons, hav]
  | cons b l ih =>
    unfold insertDescBy
    split
    · rename_i hab
      rw [List.filter_cons]
      by_cases hav : key a = v
      · have hbv : ¬ key b = v := by
          intro hbv
          rw [hav, hbv] at hab
          exact lt_irrefl v hab
        simp [hav, hbv, ih, List.filter_cons]
      · simp [hav, ih, List.filter_cons]
    · rename_i hab
      by_cases hav : key a = v <;> simp [List.filter_cons, hav]

theorem sortDescBy_filter {α : Type} (key : α → Rat) (v : Rat) (l : List α) :
    (sortDescBy key l).filter (fun x => key x == v) = l.filter (fun x => key x == v) := by
  induction l with
  | nil => rfl
  | cons a l ih =>
    unfold sortDescBy
    rw [filter_insertDescBy]
    by_cases hav : key a = v <;> simp [hav, ih, List.filter_cons]

/-- C6 (amended). Group fan-out merge: for every sequence of member query
outcomes and every `top_k` that is absent or at least 1, `query_group` returns
the stable descending-by-score sort of the concatenation of the successful
members' results (a failing member contributes nothing), truncated to `top_k`
when given. The sort is characterized uniquely: pairwise descending scores, and
for every score value the subsequence with that score equals the corresponding
subsequence of the concatenation (stability = insertion order preserved on
ties). Second conjunct: the spec's concrete example — members returning scores
[9/10, 1/2] and [4/5, 2/5] (i.e. [0.9, 0.5] and [0.8, 0.4]) merged with
`top_k = 3` give exactly the scores [0.9, 0.8, 0.5] in that order. The
amendment: truncation applies only to a positive `top_k`; `top_k = 0` is falsy
in Python and skips truncation (see the counterexample). -/
theorem query_group_merge_spec :
    (∀ (memberResults : List (Except String (List QEntry))) (top_k : Option Int),
      (∀ k, top_k = some k → 1 ≤ k) →
      ∃ s : List QEntry,
        s.Pairwise (fun a b => QEntry.scoreKey b ≤ QEntry.scoreKey a) ∧
        (∀ v : Rat,
          s.filter (fun e => QEntry.scoreKey e == v)
            = (memberResults.foldl (fun acc r => match r with
                | Except.ok l => acc ++ l
                | Except.error _ => acc) []).filter (fun e => QEntry.scoreKey e == v)) ∧
        DigestorManager.query_group memberResults top_k
          = (match top_k with
             | none => s
             | some k => s.take k.toNat)) ∧
    DigestorManager.query_group
        [Except.ok [⟨"m1r1", some (Rat.mk' 9 10)⟩, ⟨"m1r2", some (Rat.mk' 1 2)⟩],
         Except.ok [⟨"m2r1", some (Rat.mk' 4 5)⟩, ⟨"m2r2", some (Rat.mk' 2 5)⟩]] (some 3)
      = [⟨"m1r1", some (Rat.mk' 9 10)⟩, ⟨"m2r1", some (Rat.mk' 4 5)⟩,
         ⟨"m1r2", some (Rat.mk' 1 2)⟩] := by
  constructor
  · intro mr tk htk
    refine ⟨sortDescBy QEntry.scoreKey (mr.foldl (fun acc r => match r with
        | Except.ok l => acc ++ l
        | Except.error _ => acc) []),
      sortDescBy_sorted _ _, fun v => sortDescBy_filter _ _ _, ?_⟩
    unfold DigestorManager.query_group
    cases tk with
    | none => rfl
    | some k =>
      have hk : 1 ≤ k := htk k rfl
      simp only []
      rw [if_neg (by omega)]
      unfold pySliceTo
      rw [if_pos (by omega)]
  · decide

/-- Witness for C6 at a concrete input (three members, one of them failing,
`top_k = 2`). -/
theorem query_group_merge_spec_witness :
    (∀ k : Int, (some (2 : Int)) = some k → 1 ≤ k) ∧
    (∃ s : List QEntry,
      s.Pairwise (fun a b => QEntry.scoreKey b ≤ QEntry.scoreKey a) ∧
      (∀ v : Rat,
        s.filter (fun e => QEntry.scoreKey e == v)
          = (([Except.ok [⟨"m1", some (Rat.mk' 9 10)⟩], Except.error "member down",
              Except.ok [⟨"m3", some (Rat.mk' 4 5)⟩]] :
                List (Except String (List QEntry))).foldl (fun acc r => match r with
              | Except.ok l => acc ++ l
              | Except.error _ => acc) []).filter (fun e => QEntry.scoreKey e == v)) ∧
      DigestorManager.query_group
          [Except.ok [⟨"m1", some (Rat.mk' 9 10)⟩], Except.error "member down",
           Except.ok [⟨"m3", some (Rat.mk' 4 5)⟩]] (some 2)
        = s.take 2) :=
  ⟨fun k hk => by injection hk with h; omega,
   query_group_merge_spec.1
     [Except.ok [⟨"m1", some (Rat.mk' 9 10)⟩], Except.error "member down",
      Except.ok [⟨"m3", some (Rat.mk' 4 5)⟩]] (some 2)
     (fun k hk => by injection hk with h; omega)⟩

/-- C6 counterexample to the claim as stated: with `top_k = 0` the claim
demands truncation to 0 entries, but `sorted_results[:top_k] if top_k else
sorted_results` treats 0 as falsy and returns the full sorted list. -/
theorem query_group_topk_zero_counterexample :
    DigestorManager.query_group [Except.ok [⟨"only", some (Rat.mk' 9 10)⟩]] (some 0)
      = [⟨"only", some (Rat.mk' 9 10)⟩] ∧
    ¬ (DigestorManager.query_group [Except.ok [⟨"only", some (Rat.mk' 9 10)⟩]]
        (some 0)).length ≤ 0 := by
  decide


theorem lookup_filter_self (l : List (String × Engine)) (id : String) :
    (l.filter fun p => p.1 != id).lookup id = none := by
  induction l with
  | nil => rfl
  | cons p l ih =>
    obtain ⟨k, v⟩ := p
    rw [List.filter_cons]
    by_cases h : k = id
    · simp [h, ih]
    · rw [if_pos (by simp [h])]
      have hbeq : (id == k) = false := beq_eq_false_iff_ne.mpr (Ne.symm h)
      simp [List.lookup, hbeq, ih]

theorem lookup_filter_other (l : List (String × Engine)) (id m : String) (hne : m ≠ id) :
    (l.filter fun p => p.1 != id).lookup m = l.lookup m := by
  induction l with
  | nil => rfl
  | cons p l ih =>
    obtain ⟨k, v⟩ := p
    rw [List.filter_cons]
    by_cases hk : k = id
    · subst hk
      have hbeq : (m == k) = false := beq_eq_false_iff_ne.mpr hne
      simp [List.lookup, hbeq, ih]
    · rw [if_pos (by simp [hk])]
      by_cases hmk : m = k
      · subst hmk
        simp [List.lookup]
      · have hbeq : (m == k) = false := beq_eq_false_iff_ne.mpr hmk
        simp [List.lookup, hbeq, ih]

/-- C7 (amended). `delete_instance`: fails `NotFound` (`KeyError`) when the id
is absent; otherwise removes the id from the registry and from every group —
PROVIDED no group lists the id twice (`members.remove(id)` removes only the
first occurrence, see the counterexample). Under that proviso, referential
integrity is preserved: if every group member was registered before, every
group member is registered after. Third conjunct: the spec's concrete example —
after `create_group("g", ["a", "b"])` then `delete_instance("a")`,
`get_group("g")` returns only b's engine. -/
theorem delete_instance_spec :
    (∀ (st : MgrState) (id : String),
      st.instances.lookup id = none →
      ∃ e, DigestorManager.delete_instance st id = Except.error e) ∧
    (∀ (st : MgrState) (id : String) (eng : Engine),
      st.instances.lookup id = some eng →
      (∀ g ∈ st.groups, g.2.count id ≤ 1) →
      (∀ g ∈ st.groups, ∀ m ∈ g.2, (st.instances.lookup m).isSome) →
      ∃ st1, DigestorManager.delete_instance st id = Except.ok st1 ∧
        st1.instances.lookup id = none ∧
        (∀ g ∈ st1.groups, id ∉ g.2) ∧
        (∀ g ∈ st1.groups, ∀ m ∈ g.2, (st1.instances.lookup m).isSome)) ∧
    (∀ engA engB : Engine,
      ∃ stG st1,
        DigestorManager.create_group ⟨[("a", engA), ("b", engB)], []⟩ "g" ["a", "b"]
          = Except.ok stG ∧
        DigestorManager.delete_instance stG "a" = Except.ok st1 ∧
        DigestorManager.get_group st1 "g" = Except.ok [engB]) := by
  refine ⟨?_, ?_, ?_⟩
  · intro st id h
    unfold DigestorManager.delete_instance
    rw [h]
    exact ⟨_, rfl⟩
  · intro st id eng hlk hnodup hint
    refine ⟨⟨st.instances.filter fun p => p.1 != id,
             st.groups.map fun g => (g.1, g.2.erase id)⟩, ?_, ?_, ?_, ?_⟩
    · unfold DigestorManager.delete_instance
      rw [hlk]
    · exact lookup_filter_self st.instances id
    · intro g hg
      obtain ⟨g0, hg0, rfl⟩ := List.mem_map.mp hg
      intro hmem
      have hcount := hnodup g0 hg0
      have h1 : g0.2.count id - 1 < g0.2.count id → False := by
        intro _
        have h2 : 0 < (g0.2.erase id).count id := List.count_pos_iff.mpr hmem
        rw [List.count_erase_self] at h2
        omega
      have h2 : 0 < (g0.2.erase id).count id := List.count_pos_iff.mpr hmem
      rw [List.count_erase_self] at h2
      omega
    · intro g hg m hm
      obtain ⟨g0, hg0, rfl⟩ := List.mem_map.mp hg
      have hm0 : m ∈ g0.2 := List.mem_of_mem_erase hm
      by_cases hmid : m = id
      · subst hmid
        exfalso
        have h2 : 0 < (g0.2.erase m).count m := List.count_pos_iff.mpr hm
        rw [List.count_erase_self] at h2
        have := hnodup g0 hg0
        omega
      · rw [lookup_filter_other st.instances id m hmid]
        exact hint g0 hg0 m hm0
  · intro engA engB
    exact ⟨⟨[("a", engA), ("b", engB)], [("g", ["a", "b"])]⟩,
           ⟨[("b", engB)], [("g", ["b"])]⟩, rfl, rfl, rfl⟩

/-- Witness for C7 at a concrete registry with two instances and one group. -/
theorem delete_instance_spec_witness :
    ((⟨[("a", ⟨"A", false⟩), ("b", ⟨"B", true⟩)], [("g", ["a", "b"])]⟩ :
        MgrState).instances.lookup "a" = some ⟨"A", false⟩) ∧
    (∃ st1, DigestorManager.delete_instance
        ⟨[("a", ⟨"A", false⟩), ("b", ⟨"B", true⟩)], [("g", ["a", "b"])]⟩ "a"
        = Except.ok st1 ∧
      st1.instances.lookup "a" = none ∧
      (∀ g ∈ st1.groups, "a" ∉ g.2) ∧
      (∀ g ∈ st1.groups, ∀ m ∈ g.2, (st1.instances.lookup m).isSome)) :=
  ⟨by decide,
   delete_instance_spec.2.1
     ⟨[("a", ⟨"A", false⟩), ("b", ⟨"B", true⟩)], [("g", ["a", "b"])]⟩ "a" ⟨"A", false⟩
     (by decide) (by decide) (by decide)⟩

/-- C7 counterexample to the claim as stated: `create_group` accepts duplicate
member ids; `delete_instance("a")` then removes only the first "a" from the
group, so the group still references the now-unregistered "a" and
`get_group("g")` raises `KeyError` instead of returning the remaining engines. -/
theorem delete_instance_duplicate_counterexample :
    DigestorManager.create_group ⟨[("a", ⟨"A", false⟩)], []⟩ "g" ["a", "a"]
      = Except.ok ⟨[("a", ⟨"A", false⟩)], [("g", ["a", "a"])]⟩ ∧
    DigestorManager.delete_instance ⟨[("a", ⟨"A", false⟩)], [("g", ["a", "a"])]⟩ "a"
      = Except.ok ⟨[], [("g", ["a"])]⟩ ∧
    "a" ∈ ((([("g", ["a"])] : List (String × List String))).lookup "g").getD [] ∧
    (([] : List (String × Engine)).lookup "a" = none) ∧
    DigestorManager.get_group ⟨[], [("g", ["a"])]⟩ "g" = Except.error "KeyError: a" :=
  ⟨rfl, rfl, by decide, rfl, rfl⟩

/-- C8 (amended). `query_all`: for every Working state and `k_work ≥ 1`,
assuming the long-term query returns at most `k_long` results (the adapter
contract), the output is exactly the most recent `min(k_work, |Working|)`
Working entries — the final segment `suf` of the Working list, so in
oldest-to-newest order, selected by recency and not re-ranked — each tagged as
working, followed by the long-term results each tagged as longterm, and has at
most `min(k_work, |Working|) + k_long` items. The amendment: `k_work ≥ 1`
instead of `k_work ≥ 0`, because `working.list()[-k_work:]` with `k_work = 0`
is the WHOLE list in Python (see the counterexample). -/
theorem query_all_spec (working : List MemoryEntry)
    (longQuery : String → Int → List QEntry) (text : String) (k_work k_long : Int)
    (hk : 1 ≤ k_work)
    (hlq : ((longQuery text k_long).length : Int) ≤ k_long) :
    ∃ pre suf, working = pre ++ suf ∧
      (suf.length : Int) = min k_work (working.length : Int) ∧
      MemoryLayers.query_all working longQuery text k_work k_long
        = suf.map QueryAllItem.workingItem
          ++ (longQuery text k_long).map QueryAllItem.longtermItem ∧
      ((MemoryLayers.query_all working longQuery text k_work k_long).length : Int)
        ≤ min k_work (working.length : Int) + k_long := by
  refine ⟨working.take ((working.length : Int) + -k_work).toNat,
          working.drop ((working.length : Int) + -k_work).toNat,
          (List.take_append_drop _ working).symm, ?_, ?_, ?_⟩
  · rw [List.length_drop]
    omega
  · unfold MemoryLayers.query_all pySliceFrom
    rw [if_pos (by omega)]
  · unfold MemoryLayers.query_all pySliceFrom
    rw [if_pos (by omega)]
    rw [List.length_append, List.length_map, List.length_map, List.length_drop]
    push_cast
    omega

/-- Witness for C8 at a concrete input: three Working entries, `k_work = 2`,
`k_long = 5`, a long-term query returning one result. -/
theorem query_all_spec_witness :
    (1 : Int) ≤ 2 ∧
    (((fun (_ : String) (_ : Int) => [(⟨"lt1", some (Rat.mk' 1 2)⟩ : QEntry)]) "q" 5).length : Int) ≤ 5 ∧
    (∃ pre suf,
      ([⟨"e1", "user", "one"⟩, ⟨"e2", "user", "two"⟩, ⟨"e3", "user", "three"⟩] :
        List MemoryEntry) = pre ++ suf ∧
      (suf.length : Int) = min 2 (([⟨"e1", "user", "one"⟩, ⟨"e2", "user", "two"⟩,
        ⟨"e3", "user", "three"⟩] : List MemoryEntry).length : Int) ∧
      MemoryLayers.query_all [⟨"e1", "user", "one"⟩, ⟨"e2", "user", "two"⟩, ⟨"e3", "user", "three"⟩]
          (fun _ _ => [⟨"lt1", some (Rat.mk' 1 2)⟩]) "q" 2 5
        = suf.map QueryAllItem.workingItem
          ++ [(⟨"lt1", some (Rat.mk' 1 2)⟩ : QEntry)].map QueryAllItem.longtermItem ∧
      ((MemoryLayers.query_all [⟨"e1", "user", "one"⟩, ⟨"e2", "user", "two"⟩, ⟨"e3", "user", "three"⟩]
          (fun _ _ => [⟨"lt1", some (Rat.mk' 1 2)⟩]) "q" 2 5).length : Int)
        ≤ min 2 (([⟨"e1", "user", "one"⟩, ⟨"e2", "user", "two"⟩,
            ⟨"e3", "user", "three"⟩] : List MemoryEntry).length : Int) + 5) :=
  ⟨by decide, by decide,
   query_all_spec [⟨"e1", "user", "one"⟩, ⟨"e2", "user", "two"⟩, ⟨"e3", "user", "three"⟩]
     (fun _ _ => [⟨"lt1", some (Rat.mk' 1 2)⟩]) "q" 2 5 (by decide) (by decide)⟩

/-- C8 counterexample to the claim as stated: with `k_work = 0` and one
Working entry the claim demands `min(0, 1) = 0` working-tagged entries, but the
Python slice `[-0:]` yields the whole list, so the entry is returned. -/
theorem query_all_kwork_zero_counterexample :
    MemoryLayers.query_all [⟨"e1", "user", "hello"⟩] (fun _ _ => []) "q" 0 5
      = [QueryAllItem.workingItem ⟨"e1", "user", "hello"⟩] ∧
    ¬ (List.countP QueryAllItem.isWorking
        (MemoryLayers.query_all [⟨"e1", "user", "hello"⟩] (fun _ _ => []) "q" 0 5)
        = min ((0 : Int).toNat) 1) := by
  decide

/-- Dividing a positive remaining length into steps: peeling one step off the
ceiling division. -/
theorem ceil_step (m step : Nat) (hstep : 0 < step) (hm : 0 < m) :
    (m + step - 1) / step = ((m - step) + step - 1) / step + 1 := by
  rcases le_or_lt m step with h | h
  · have h1 : m - step = 0 := by omega
    have h2 : m + step - 1 = (m - 1) + step := by omega
    rw [h1, h2, Nat.add_div_right _ hstep, Nat.zero_add]
    have h3 : (m - 1) / step = 0 := Nat.div_eq_of_lt (by omega)
    have h4 : (step - 1) / step = 0 := Nat.div_eq_of_lt (by omega)
    rw [h3, h4]
  · have h2 : m + step - 1 = (m - 1 - step) + step + step := by omega
    have h3 : (m - step) + step - 1 = (m - 1 - step) + step := by omega
    rw [h2, h3, Nat.add_div_right _ hstep, Nat.add_div_right _ hstep]

/-- The chunking loop enumerates exactly the slices `text[start + i*step :
start + i*step + size]` for `i` below the ceiling of the remaining length over
the step. -/
theorem chunkLoop_eq (text : List Char) (size step : Nat) (hstep : 0 < step) :
    ∀ fuel start, text.length - start ≤ fuel →
      chunkLoop text size step hstep start
        = (List.range ((text.length - start + step - 1) / step)).map
            fun i => (text.drop (start + i * step)).take size := by
  intro fuel
  induction fuel with
  | zero =>
    intro start hle
    rw [chunkLoop]
    rw [dif_neg (by omega)]
    have h0 : text.length - start = 0 := by omega
    rw [h0]
    have h1 : (0 + step - 1) / step = 0 := Nat.div_eq_of_lt (by omega)
    rw [h1]
    rfl
  | succ n ih =>
    intro start hle
    rw [chunkLoop]
    by_cases hlt : start < text.length
    · rw [dif_pos hlt]
      rw [ih (start + step) (by omega)]
      have hm : 0 < text.length - start := by omega
      have hsub : text.length - (start + step) = (text.length - start) - step := by omega
      rw [hsub, ceil_step (text.length - start) step hstep hm, List.range_succ_eq_map]
      rw [List.map_cons, List.map_map]
      congr 1
      · simp
      · apply List.map_congr_left
        intro i _
        simp only [Function.comp_apply, Nat.succ_eq_add_one]
        have harg : start + (i + 1) * step = start + step + i * step := by ring
        rw [harg]
    · rw [dif_neg hlt]
      have h0 : text.length - start = 0 := by omega
      rw [h0]
      have h1 : (0 + step - 1) / step = 0 := Nat.div_eq_of_lt (by omega)
      rw [h1]
      rfl

/-- On valid arguments, `chunk_text` succeeds with the closed-form list of
slices. -/
theorem chunk_text_ok (text : List Char) (size overlap : Int)
    (hs : 0 < size) (ho : 0 ≤ overlap) (hso : overlap < size) :
    chunk_text text size overlap
      = Except.ok ((List.range
            ((text.length + (size - overlap).toNat - 1) / (size - overlap).toNat)).map
          fun i => (text.drop (i * (size - overlap).toNat)).take size.toNat) := by
  unfold chunk_text
  rw [dif_neg (by omega), dif_neg (by omega)]
  congr 1
  rw [chunkLoop_eq text size.toNat (size - overlap).toNat (by omega) text.length 0
    (by omega)]
  simp


/-- C5. Chunker correctness: `chunk_text` fails (`ValueError`, the spec's
`InvalidArgument`) exactly when `size ≤ 0`, `overlap < 0` or `overlap ≥ size`;
on valid arguments it returns `ceil(len(text) / (size - overlap))` chunks, the
i-th being `text[i*step : i*step + size]` for `step = size - overlap` (start
offset 0, advancing by `step`, stopping at `start ≥ len(text)`), every character
of the text appears in at least one chunk at its expected position, and empty
input yields an empty sequence. -/
theorem chunk_text_spec (text : List Char) (size overlap : Int) :
    ((size ≤ 0 ∨ overlap < 0 ∨ overlap ≥ size) →
      ∃ msg, chunk_text text size overlap = Except.error msg) ∧
    (0 < size → 0 ≤ overlap → overlap < size →
      ∃ chunks, chunk_text text size overlap = Except.ok chunks ∧
        chunks.length
          = (text.length + (size - overlap).toNat - 1) / (size - overlap).toNat ∧
        (∀ i, i < chunks.length →
          chunks.get? i
            = some ((text.drop (i * (size - overlap).toNat)).take size.toNat)) ∧
        (∀ j, j < text.length → ∃ i ci, chunks.get? i = some ci ∧
          ci.get? (j - i * (size - overlap).toNat) = text.get? j) ∧
        (text = [] → chunks = [])) := by
  constructor
  · intro hbad
    unfold chunk_text
    by_cases hs : size ≤ 0
    · rw [dif_pos hs]
      exact ⟨_, rfl⟩
    · rw [dif_neg hs]
      by_cases ho : overlap < 0 ∨ overlap ≥ size
      · rw [dif_pos ho]
        exact ⟨_, rfl⟩
      · exfalso
        rcases hbad with h | h | h
        · exact hs h
        · exact ho (Or.inl h)
        · exact ho (Or.inr h)
  · intro hs ho hso
    rw [chunk_text_ok text size overlap hs ho hso]
    set step := (size - overlap).toNat with hstepdef
    have hstep : 0 < step := by omega
    refine ⟨_, rfl, ?_, ?_, ?_, ?_⟩
    · simp
    · intro i hi
      simp only [List.length_map, List.length_range] at hi
      rw [List.get?_map, List.get?_range hi]
      rfl
    · intro j hj
      have hssize : step ≤ size.toNat := by omega
      have hA : j / step * step ≤ j := Nat.div_mul_le_self j step
      have hB : j < j / step * step + step := Nat.lt_div_mul_add hstep
      have hi_lt : j / step < (text.length + step - 1) / step := by
        have h1 : j / step ≤ (text.length - 1) / step :=
          Nat.div_le_div_right (by omega)
        have h2 : text.length + step - 1 = (text.length - 1) + step := by omega
        rw [h2, Nat.add_div_right _ hstep]
        exact Nat.lt_succ_of_le h1
      refine ⟨j / step, (text.drop (j / step * step)).take size.toNat, ?_, ?_⟩
      · rw [List.get?_map, List.get?_range hi_lt]
        rfl
      · have hsub_lt : j - j / step * step < step := (tsub_lt_iff_left hA).mpr hB
        have hjlt : j - j / step * step < size.toNat := lt_of_lt_of_le hsub_lt hssize
        rw [List.get?_take hjlt, List.get?_drop]
        congr 1
        exact Nat.add_sub_cancel' hA
    · intro htext
      subst htext
      simp only [List.length_nil, Nat.zero_add]
      have h1 : (step - 1) / step = 0 := Nat.div_eq_of_lt (by omega)
      rw [h1]
      rfl

/-- Witness for C5 at `text = "abcde"`, `size = 2`, `overlap = 1` (chunks
"ab", "bc", "cd", "de", "e"). -/
theorem chunk_text_spec_witness :
    (0 : Int) < 2 ∧ (0 : Int) ≤ 1 ∧ (1 : Int) < 2 ∧
    (∃ chunks, chunk_text "abcde".data 2 1 = Except.ok chunks ∧
      chunks.length
        = ("abcde".data.length + ((2 : Int) - 1).toNat - 1) / ((2 : Int) - 1).toNat ∧
      (∀ i, i < chunks.length →
        chunks.get? i
          = some (("abcde".data.drop (i * ((2 : Int) - 1).toNat)).take (2 : Int).toNat)) ∧
      (∀ j, j < "abcde".data.length → ∃ i ci, chunks.get? i = some ci ∧
        ci.get? (j - i * ((2 : Int) - 1).toNat) = "abcde".data.get? j) ∧
      ("abcde".data = [] → chunks = [])) :=
  ⟨by decide, by decide, by decide,
   (chunk_text_spec "abcde".data 2 1).2 (by decide) (by decide) (by decide)⟩

end Mindshard
